import Mathlib

/-!
Shallow embedding of the pharmacokinetics module `pharm/foundational_pharm.py`.

Numeric values (Python floats) are modelled as exact rationals `ℚ`; a Python
float division by zero raises `ZeroDivisionError`, modelled by `Except` with a
zero test on the divisor.  Python strings are modelled by `String`, with
`str.lower` embedded (on its ASCII domain) by mapping `Char.toLower` over the
characters, and string `<` embedded by code-point lexicographic comparison.
A Python dict is modelled as an association list looked up by decidable
equality on keys; a dict loaded by `json.load` always has string keys, while
the key built by `check_interactions` is a tuple, so dict keys are given the
sum type `PyKey` distinguishing the two runtime types.  Reading a file is
modelled by passing the (optional) parsed content of the configured path.
-/

/-- The numeric error a Python float division by zero raises. -/
inductive PyNumError where
  | zeroDivisionError
deriving DecidableEq

/-- The two error kinds the lookup helpers raise: `Exception` for a missing
database file, `ValueError` for a drug absent from a loaded table. -/
inductive PharmError where
  | missingDatabase
  | unknownDrug
deriving DecidableEq

/-- Runtime type of a Python dict key as used by this module: a JSON-loaded
table has `str` keys; `check_interactions` builds a tuple of two strings. -/
inductive PyKey where
  | str (s : String)
  | tup (l : List String)
deriving DecidableEq

/-- `d.get(k)` / `k in d` / `d[k]` on a Python dict, as association-list
lookup by (runtime) equality. -/
def pyGet {κ β : Type} [DecidableEq κ] : List (κ × β) → κ → Option β
  | [], _ => none
  | (k, v) :: rest, q => if q = k then some v else pyGet rest q

/-- Python `s.lower()` on its ASCII domain: lower-case every character. -/
def pyLower (s : String) : String :=
  ⟨s.data.map Char.toLower⟩

/-- Whether a string contains an ASCII upper-case letter. -/
def hasUpper (s : String) : Bool :=
  s.data.any fun c => decide (65 ≤ c.toNat ∧ c.toNat ≤ 90)

/-- Python string `<`: code-point lexicographic comparison. -/
def strLtb : List Char → List Char → Bool
  | [], [] => false
  | [], _ :: _ => true
  | _ :: _, [] => false
  | a :: as, b :: bs => if a < b then true else if b < a then false else strLtb as bs

/-- Python `sorted([a, b])` on two strings (stable: swap only when `b < a`). -/
def sortPair (a b : String) : List String :=
  if strLtb b.data a.data then [b, a] else [a, b]

/-- The key `tuple(sorted([x.lower(), y.lower()]))` built by
`check_interactions` for the drug pair `(x, y)`. -/
def pairKey (x y : String) : PyKey :=
  PyKey.tup (sortPair (pyLower x) (pyLower y))

/-- The ordered pairs `(drug_list[i], drug_list[j])` visited by the loops
`for i in range(n): for j in range(i+1, n)`, in iteration order. -/
def offDiag : List String → List (String × String)
  | [] => []
  | x :: xs => (xs.map fun y => (x, y)) ++ offDiag xs

/-- The pair keys looked up by `check_interactions` on a list, in order. -/
def pairKeys : List String → List PyKey
  | [] => []
  | x :: xs => (xs.map (pairKey x)) ++ pairKeys xs

/-- The f-string `f"Interaction between {a} and {b}: {d}"`. -/
def interactionMsg (a b d : String) : String :=
  "Interaction between " ++ a ++ " and " ++ b ++ ": " ++ d

/-- `elimination_rate_constant(CL, Vd) = CL / Vd`. -/
def elimination_rate_constant (CL Vd : ℚ) : Except PyNumError ℚ :=
  if Vd = 0 then .error .zeroDivisionError else .ok (CL / Vd)

/-- `half_life(CL, Vd) = 0.693 / elimination_rate_constant(CL, Vd)`. -/
def half_life (CL Vd : ℚ) : Except PyNumError ℚ :=
  match elimination_rate_constant CL Vd with
  | .error e => .error e
  | .ok k_e => if k_e = 0 then .error .zeroDivisionError else .ok (693 / 1000 / k_e)

/-- `initial_concentration(D, Vd) = D / Vd`. -/
def initial_concentration (D Vd : ℚ) : Except PyNumError ℚ :=
  if Vd = 0 then .error .zeroDivisionError else .ok (D / Vd)

/-- `plasma_concentration_iv_bolus_single(C_0, k_e, t) = C_0 * np.exp(-k_e*t)`;
`np.exp` is passed in as the function `expf` it denotes. -/
def plasma_concentration_iv_bolus_single (expf : ℚ → ℚ) (C_0 k_e t : ℚ) : ℚ :=
  C_0 * expf (-k_e * t)

/-- `adjust_dose_for_kidney_function(dose, CLcr, standard) = dose * (CLcr/standard)`. -/
def adjust_dose_for_kidney_function (dose creatinine_clearance : ℚ)
    (standard_creatinine_clearance : ℚ := 100) : Except PyNumError ℚ :=
  if standard_creatinine_clearance = 0 then .error .zeroDivisionError
  else .ok (dose * (creatinine_clearance / standard_creatinine_clearance))

/-- `adjust_dose_for_liver_function(dose, score, max_score)`:
`adjustment_factor = 1 - (score/max_score)*0.5; return dose * adjustment_factor`. -/
def adjust_dose_for_liver_function (dose liver_function_score : ℚ)
    (max_score : ℚ := 15) : Except PyNumError ℚ :=
  if max_score = 0 then .error .zeroDivisionError
  else .ok (dose * (1 - liver_function_score / max_score * (1 / 2)))

/-- A therapeutic-range table as loaded from `therapeutic_ranges.json`:
lower-case drug name to the 2-element array `[low, high]`. -/
abbrev RangeTable : Type := List (String × (ℚ × ℚ))

/-- An interaction table as loaded from `drug_interactions.json`: dict keys of
runtime type `PyKey`, values the interaction description strings. -/
abbrev ITable : Type := List (PyKey × String)

/-- `is_within_therapeutic_range(concentration, drug_name, patient_data, db_file)`;
`contents` is the parsed JSON at `db_file` (`none`: `FileNotFoundError`). -/
def is_within_therapeutic_range {α : Type} (concentration : ℚ) (drug_name : String)
    (patient_data : α) (contents : Option RangeTable) : Except PharmError Bool :=
  match contents with
  | none => .error .missingDatabase
  | some therapeutic_ranges =>
    match pyGet therapeutic_ranges (pyLower drug_name) with
    | none => .error .unknownDrug
    | some (lower, upper) =>
      .ok (decide (lower ≤ concentration) && decide (concentration ≤ upper))

/-- `check_interactions(drug_list, db_file)`; `contents` is the parsed JSON at
`db_file` (`none`: `FileNotFoundError`).  For each visited pair the tuple key
is looked up and, on a hit, the formatted description is appended. -/
def check_interactions (drug_list : List String)
    (contents : Option ITable) : Except PharmError (List String) :=
  match contents with
  | none => .error .missingDatabase
  | some interaction_pairs =>
    .ok ((offDiag drug_list).filterMap fun p =>
      (pyGet interaction_pairs (pairKey p.1 p.2)).map (interactionMsg p.1 p.2))

/-- A patient-data dict (contents irrelevant: the module never reads it). -/
abbrev PatientData : Type := List (String × String)

/-- The file system visible to the module: parsed content of the range files
and of the interaction files, per path. -/
structure World where
  rangeFiles : List (String × RangeTable)
  interFiles : List (String × ITable)

/-- One call into the module, with all its arguments. -/
inductive Op where
  | ercCall (CL Vd : ℚ)
  | halfLifeCall (CL Vd : ℚ)
  | initConcCall (D Vd : ℚ)
  | bolusCall (C_0 k_e t : ℚ)
  | kidneyCall (dose clcr std : ℚ)
  | liverCall (dose score maxScore : ℚ)
  | rangeCall (conc : ℚ) (name : String) (pd : PatientData) (db_file : String)
  | interCall (drugs : List String) (db_file : String)

/-- The value a call returns (or the exception it raises). -/
inductive Out where
  | num (v : Except PyNumError ℚ)
  | pure (v : ℚ)
  | boolOut (v : Except PharmError Bool)
  | listOut (v : Except PharmError (List String))

/-- Run one call against the file system; the calls only open files for
reading, so the world is returned unchanged. -/
def step (expf : ℚ → ℚ) (w : World) : Op → Out × World
  | .ercCall CL Vd => (.num (elimination_rate_constant CL Vd), w)
  | .halfLifeCall CL Vd => (.num (half_life CL Vd), w)
  | .initConcCall D Vd => (.num (initial_concentration D Vd), w)
  | .bolusCall C_0 k_e t => (.pure (plasma_concentration_iv_bolus_single expf C_0 k_e t), w)
  | .kidneyCall dose clcr std => (.num (adjust_dose_for_kidney_function dose clcr std), w)
  | .liverCall dose score maxScore => (.num (adjust_dose_for_liver_function dose score maxScore), w)
  | .rangeCall conc name pd db_file =>
      (.boolOut (is_within_therapeutic_range conc name pd (pyGet w.rangeFiles db_file)), w)
  | .interCall drugs db_file =>
      (.listOut (check_interactions drugs (pyGet w.interFiles db_file)), w)

/-- The unordered pair `(x, y)` "is found" on input `l`: its key is among the
keys `check_interactions` looks up for `l`, and the table contains it. -/
def pairFound (tbl : ITable) (l : List String) (x y : String) : Prop :=
  pairKey x y ∈ pairKeys l ∧ (pyGet tbl (pairKey x y)).isSome = true

theorem toNat_toLower_not_upper (c : Char) :
    ¬(65 ≤ (Char.toLower c).toNat ∧ (Char.toLower c).toNat ≤ 90) := by
  unfold Char.toLower
  by_cases h : c.toNat ≥ 65 ∧ c.toNat ≤ 90
  · rw [if_pos h]
    have hv : (c.toNat + 32).isValidChar := Or.inl (by omega)
    have he : (Char.ofNat (c.toNat + 32)).toNat = c.toNat + 32 := by
      rw [Char.ofNat, dif_pos hv]
      rfl
    omega
  · rw [if_neg h]
    omega

theorem pyLower_ne_of_hasUpper (q k : String) (h : hasUpper k = true) : pyLower q ≠ k := by
  intro he
  obtain ⟨c, hc, hcu⟩ := List.any_eq_true.mp h
  have hup := of_decide_eq_true hcu
  have hdata : k.data = q.data.map Char.toLower := by rw [← he]; rfl
  rw [hdata] at hc
  obtain ⟨c', _, rfl⟩ := List.mem_map.mp hc
  exact toNat_toLower_not_upper c' hup

theorem pyGet_pyLower_eq_none (tbl : RangeTable) (q : String)
    (h : ∀ kv ∈ tbl, hasUpper kv.1 = true) : pyGet tbl (pyLower q) = none := by
  induction tbl with
  | nil => rfl
  | cons kv rest ih =>
    obtain ⟨k, v⟩ := kv
    simp only [pyGet]
    rw [if_neg (pyLower_ne_of_hasUpper q k (h (k, v) (List.mem_cons_self _ _)))]
    exact ih fun kv hkv => h kv (List.mem_cons_of_mem _ hkv)

theorem strLtb_asymm {a b : List Char} (h : strLtb a b = true) : strLtb b a = false := by
  induction a generalizing b with
  | nil =>
    cases b with
    | nil => simp [strLtb] at h
    | cons y ys => rfl
  | cons x xs ih =>
    cases b with
    | nil => simp [strLtb] at h
    | cons y ys =>
      simp only [strLtb] at h ⊢
      by_cases hxy : x < y
      · rw [if_neg (Char.lt_asymm hxy), if_pos hxy]
      · by_cases hyx : y < x
        · rw [if_neg hxy, if_pos hyx] at h
          simp at h
        · rw [if_neg hxy, if_neg hyx] at h
          rw [if_neg hyx, if_neg hxy]
          exact ih h

theorem strLtb_eq_of {a b : List Char} (h1 : strLtb a b = false) (h2 : strLtb b a = false) :
    a = b := by
  induction a generalizing b with
  | nil =>
    cases b with
    | nil => rfl
    | cons y ys => simp [strLtb] at h1
  | cons x xs ih =>
    cases b with
    | nil => simp [strLtb] at h2
    | cons y ys =>
      simp only [strLtb] at h1 h2
      by_cases hxy : x < y
      · rw [if_pos hxy] at h1
        simp at h1
      · by_cases hyx : y < x
        · rw [if_pos hyx] at h2
          simp at h2
        · rw [if_neg hxy, if_neg hyx] at h1
          rw [if_neg hyx, if_neg hxy] at h2
          have hx : x = y := Char.le_antisymm (Char.not_lt.mp hyx) (Char.not_lt.mp hxy)
          rw [hx, ih h1 h2]

theorem strLtb_self (a : List Char) : strLtb a a = false := by
  induction a with
  | nil => rfl
  | cons x xs ih =>
    simp only [strLtb]
    rw [if_neg (Char.lt_irrefl x), if_neg (Char.lt_irrefl x)]
    exact ih

theorem sortPair_comm (a b : String) : sortPair a b = sortPair b a := by
  unfold sortPair
  by_cases h1 : strLtb b.data a.data = true
  · rw [if_pos h1, if_neg (by rw [strLtb_asymm h1]; simp)]
  · have h1f : strLtb b.data a.data = false := Bool.eq_false_iff.mpr h1
    by_cases h2 : strLtb a.data b.data = true
    · rw [if_neg h1, if_pos h2]
    · have h2f : strLtb a.data b.data = false := Bool.eq_false_iff.mpr h2
      have hd : a.data = b.data := strLtb_eq_of h2f h1f
      have hab : a = b := congrArg String.mk hd
      rw [hab]

theorem sortPair_self (a : String) : sortPair a a = [a, a] := by
  unfold sortPair
  rw [if_neg (by rw [strLtb_self]; simp)]

theorem pairKey_comm (x y : String) : pairKey x y = pairKey y x := by
  unfold pairKey
  rw [sortPair_comm]

theorem pairKey_self_eq (n : String) : pairKey n n = PyKey.tup [pyLower n, pyLower n] := by
  unfold pairKey
  rw [sortPair_self]

theorem pairKeys_perm {l l' : List String} (h : l.Perm l') :
    (pairKeys l).Perm (pairKeys l') := by
  induction h with
  | nil => exact .refl _
  | cons x h ih => exact List.Perm.append (h.map (pairKey x)) ih
  | swap x y l =>
    simp only [pairKeys, List.map_cons, List.cons_append]
    rw [pairKey_comm y x]
    exact .cons _ (List.perm_append_comm_assoc _ _ _)
  | trans h1 h2 ih1 ih2 => exact ih1.trans ih2

theorem pairKey_mem (a b : String) (l₁ l₂ l₃ : List String) :
    pairKey a b ∈ pairKeys (l₁ ++ a :: (l₂ ++ b :: l₃)) := by
  induction l₁ with
  | nil =>
    simp only [List.nil_append, pairKeys]
    exact List.mem_append_left _ (List.mem_map_of_mem _ (by simp))
  | cons x xs ih =>
    simp only [List.cons_append, pairKeys]
    exact List.mem_append_right _ ih

theorem offDiag_map_pairKey (l : List String) :
    (offDiag l).map (fun p => pairKey p.1 p.2) = pairKeys l := by
  induction l with
  | nil => rfl
  | cons x xs ih =>
    simp only [offDiag, pairKeys, List.map_append, List.map_map, ih]
    rfl

theorem check_interactions_ne_nil {tbl : ITable} {l : List String} (a b : String)
    (h : pairFound tbl l a b) :
    ∃ r, check_interactions l (some tbl) = Except.ok r ∧ r ≠ [] := by
  obtain ⟨hmem, hsome⟩ := h
  refine ⟨_, rfl, fun hnil => ?_⟩
  rw [← offDiag_map_pairKey] at hmem
  obtain ⟨p, hp, hkey⟩ := List.mem_map.mp hmem
  have := List.filterMap_eq_nil_iff.mp hnil p hp
  rw [hkey] at this
  rw [Option.map_eq_none'] at this
  rw [this] at hsome
  simp at hsome

theorem pyGet_tup_eq_none (tbl : ITable) (h : ∀ kv ∈ tbl, ∃ s, kv.1 = PyKey.str s)
    (l : List String) : pyGet tbl (PyKey.tup l) = none := by
  induction tbl with
  | nil => rfl
  | cons kv rest ih =>
    obtain ⟨k, v⟩ := kv
    obtain ⟨s, hs⟩ := h (k, v) (List.mem_cons_self _ _)
    simp only [pyGet]
    rw [if_neg (by simp at hs; rw [hs]; simp)]
    exact ih fun kv hkv => h kv (List.mem_cons_of_mem _ hkv)

/-- C1: given the interaction table that the test inside the module writes,
`{"drug_a,drug_b": "Increased risk of toxicity"}`, as loaded from JSON (string
keys), `check_interactions(["drug_a","drug_b"])` returns the empty list, not
one description: the tuple key `("drug_a","drug_b")` built by the code never
equals a string key.  More generally, on any table whose keys are all strings
(which is every `json.load`-ed table), the result is empty for every input. -/
theorem C1_json_table_never_matches :
    check_interactions ["drug_a", "drug_b"]
      (some [(PyKey.str "drug_a,drug_b", "Increased risk of toxicity")]) = .ok []
    ∧ ∀ (tbl : ITable) (l : List String), (∀ kv ∈ tbl, ∃ s, kv.1 = PyKey.str s) →
        check_interactions l (some tbl) = .ok [] := by
  refine ⟨rfl, fun tbl l h => ?_⟩
  simp only [check_interactions, Except.ok.injEq]
  rw [List.filterMap_eq_nil_iff]
  intro p _
  unfold pairKey
  rw [pyGet_tup_eq_none tbl h]
  rfl

theorem is_within_some_eq {α : Type} (conc : ℚ) (name : String) (pd : α) (tbl : RangeTable) :
    is_within_therapeutic_range conc name pd (some tbl) =
      match pyGet tbl (pyLower name) with
      | none => .error .unknownDrug
      | some (lower, upper) => .ok (decide (lower ≤ conc) && decide (conc ≤ upper)) := rfl

theorem C1_json_table_never_matches_witness :
    check_interactions ["a", "b"] (some [(PyKey.str "a,b", "t")]) = .ok [] :=
  C1_json_table_never_matches.2 [(PyKey.str "a,b", "t")] ["a", "b"] (by simp)

/-- C2: when the loaded range table maps the lowercased query name to
`[low, upper]`, the checker returns a boolean that is true exactly when
`low ≤ concentration ≤ upper`, inclusive at both ends; the lookup is
case-insensitive in the query name (`"Drug_A"` matches the stored key
`"drug_a"`). -/
theorem C2_range_check {α : Type} (patient_data : α) (conc low upper : ℚ) (name : String)
    (tbl : RangeTable) (h : pyGet tbl (pyLower name) = some (low, upper)) :
    (is_within_therapeutic_range conc name patient_data (some tbl) = .ok true ↔
      low ≤ conc ∧ conc ≤ upper)
    ∧ is_within_therapeutic_range conc "Drug_A" patient_data
        (some [("drug_a", (low, upper))]) =
        .ok (decide (low ≤ conc) && decide (conc ≤ upper)) := by
  constructor
  · rw [is_within_some_eq, h]
    simp
  · rw [is_within_some_eq, show pyLower "Drug_A" = "drug_a" from rfl]
    simp [pyGet]

theorem C2_range_check_witness :
    is_within_therapeutic_range (10 : ℚ) "drug_a" () (some [("drug_a", (5, 15))]) = .ok true
    ∧ ¬ is_within_therapeutic_range (20 : ℚ) "drug_a" ()
        (some [("drug_a", (5, 15))]) = .ok true := by
  have h10 := (C2_range_check () 10 5 15 "drug_a" [("drug_a", (5, 15))] rfl).1
  have h20 := (C2_range_check () 20 5 15 "drug_a" [("drug_a", (5, 15))] rfl).1
  constructor
  · exact h10.mpr (by norm_num)
  · intro hc
    have := h20.mp hc
    norm_num at this

/-- C3: the range checker raises the missing-database error iff the file is
absent, raises the unknown-drug error iff the file loads but the lowercased
name is absent from the table, and returns a boolean in every other case;
the errors are the immediate result, with no fallback value. -/
theorem C3_error_cases {α : Type} (conc : ℚ) (name : String) (pd : α)
    (file : Option RangeTable) :
    (is_within_therapeutic_range conc name pd file = .error .missingDatabase ↔ file = none)
    ∧ (is_within_therapeutic_range conc name pd file = .error .unknownDrug ↔
        ∃ tbl, file = some tbl ∧ pyGet tbl (pyLower name) = none)
    ∧ ((∃ tbl, file = some tbl ∧ (pyGet tbl (pyLower name)).isSome = true) →
        ∃ b, is_within_therapeutic_range conc name pd file = .ok b) := by
  cases file with
  | none => simp [is_within_therapeutic_range]
  | some tbl =>
    cases hg : pyGet tbl (pyLower name) with
    | none => simp [is_within_therapeutic_range, hg]
    | some r =>
      obtain ⟨low, upper⟩ := r
      simp [is_within_therapeutic_range, hg]

theorem C3_error_cases_witness :
    is_within_therapeutic_range (1 : ℚ) "drug_a" ()
      (none : Option RangeTable) = .error .missingDatabase
    ∧ is_within_therapeutic_range (1 : ℚ) "drug_x" ()
        (some [("drug_a", ((5 : ℚ), (15 : ℚ)))]) = .error .unknownDrug := by
  constructor
  · exact (C3_error_cases 1 "drug_a" () none).1.mpr rfl
  · exact (C3_error_cases 1 "drug_x" () (some [("drug_a", (5, 15))])).2.1.mpr ⟨_, rfl, rfl⟩

/-- C4: for nonzero CL and Vd, `half_life(CL, Vd) = 0.693 / (CL / Vd)`; the
division error is raised exactly when `CL = 0` or `Vd = 0`, with `Vd = 0`
failing already inside `elimination_rate_constant` and `CL = 0` failing in
the `0.693 / k_e` division (the rate constant itself evaluates to 0). -/
theorem C4_half_life (CL Vd : ℚ) :
    (CL ≠ 0 → Vd ≠ 0 → half_life CL Vd = .ok (693 / 1000 / (CL / Vd)))
    ∧ ((∃ e, half_life CL Vd = .error e) ↔ CL = 0 ∨ Vd = 0)
    ∧ (Vd = 0 → elimination_rate_constant CL Vd = .error .zeroDivisionError
        ∧ half_life CL Vd = .error .zeroDivisionError)
    ∧ (CL = 0 → Vd ≠ 0 → elimination_rate_constant CL Vd = .ok 0
        ∧ half_life CL Vd = .error .zeroDivisionError) := by
  refine ⟨?_, ⟨?_, ?_⟩, ?_, ?_⟩
  · intro hCL hVd
    have hk : CL / Vd ≠ 0 := div_ne_zero hCL hVd
    simp [half_life, elimination_rate_constant, hVd, hk]
  · rintro ⟨e, he⟩
    by_contra hcon
    push_neg at hcon
    obtain ⟨hCL, hVd⟩ := hcon
    have hk : CL / Vd ≠ 0 := div_ne_zero hCL hVd
    simp [half_life, elimination_rate_constant, hVd, hk] at he
  · rintro (hCL | hVd)
    · by_cases hVd : Vd = 0
      · exact ⟨.zeroDivisionError, by simp [half_life, elimination_rate_constant, hVd]⟩
      · exact ⟨.zeroDivisionError, by simp [half_life, elimination_rate_constant, hVd, hCL]⟩
    · exact ⟨.zeroDivisionError, by simp [half_life, elimination_rate_constant, hVd]⟩
  · intro hVd
    simp [half_life, elimination_rate_constant, hVd]
  · intro hCL hVd
    simp [half_life, elimination_rate_constant, hVd, hCL]

theorem C4_half_life_witness : half_life 5 50 = .ok (693 / 100) := by
  have h := (C4_half_life 5 50).1 (by norm_num) (by norm_num)
  rw [h]
  norm_num

/-- C5: pair keys are symmetric, so permuting the input list does not change
whether a given unordered pair of names is found (its key is looked up and hits
the table); a list of 0 or 1 drugs always returns the empty sequence; and a
found pair makes the returned sequence nonempty. -/
theorem C5_symmetry (tbl : ITable) (x y : String) (l l' : List String) (h : l.Perm l') :
    pairKey x y = pairKey y x
    ∧ (pairFound tbl l x y ↔ pairFound tbl l' x y)
    ∧ check_interactions [] (some tbl) = .ok []
    ∧ (∀ d, check_interactions [d] (some tbl) = .ok [])
    ∧ (pairFound tbl l x y → ∃ r, check_interactions l (some tbl) = .ok r ∧ r ≠ []) := by
  refine ⟨pairKey_comm x y, ?_, rfl, fun d => rfl, check_interactions_ne_nil x y⟩
  unfold pairFound
  rw [(pairKeys_perm h).mem_iff]

theorem C5_symmetry_witness :
    (pairFound [(PyKey.tup ["a", "b"], "t")] ["b", "a"] "a" "b" ↔
      pairFound [(PyKey.tup ["a", "b"], "t")] ["a", "b"] "a" "b")
    ∧ check_interactions ([] : List String) (some [(PyKey.tup ["a", "b"], "t")]) = .ok [] := by
  have h := C5_symmetry [(PyKey.tup ["a", "b"], "t")] "a" "b" ["b", "a"] ["a", "b"]
    (List.Perm.swap "a" "b" [])
  exact ⟨h.2.1, h.2.2.1⟩

/-- C6: for nonzero `max_score` the adjusted dose is exactly
`dose * (1 - (score/max_score)*0.5)`; at `score = max_score` it is exactly half
the dose; the result is not clamped: for a negative score (and positive dose)
it exceeds the dose, and for `score > max_score` it can go below `dose*0.5`
and even negative. -/
theorem C6_liver_adjustment (dose score max_score : ℚ) (h : max_score ≠ 0) :
    adjust_dose_for_liver_function dose score max_score =
      .ok (dose * (1 - score / max_score * (1 / 2)))
    ∧ adjust_dose_for_liver_function dose max_score max_score = .ok (dose * (1 / 2))
    ∧ (0 < dose → score < 0 → 0 < max_score →
        ∃ v, adjust_dose_for_liver_function dose score max_score = .ok v ∧ dose < v)
    ∧ (∃ d s m v, 0 < m ∧ m < s ∧ adjust_dose_for_liver_function d s m = .ok v
        ∧ v < d * (1 / 2) ∧ v < 0) := by
  refine ⟨by simp [adjust_dose_for_liver_function, h], ?_, ?_, ?_⟩
  · rw [adjust_dose_for_liver_function, if_neg h, div_self h]
    norm_num
  · intro hd hs hm
    refine ⟨dose * (1 - score / max_score * (1 / 2)), by
      simp [adjust_dose_for_liver_function, h], ?_⟩
    have hneg : score / max_score < 0 := div_neg_of_neg_of_pos hs hm
    nlinarith
  · refine ⟨100, 1000, 15, -9700 / 3, by norm_num, by norm_num, ?_, by norm_num, by norm_num⟩
    rw [adjust_dose_for_liver_function, if_neg (by norm_num)]
    norm_num

theorem C6_liver_adjustment_witness :
    adjust_dose_for_liver_function 100 (15 / 2) 15 = .ok 75 := by
  have h := (C6_liver_adjustment 100 (15 / 2) 15 (by norm_num)).1
  rw [h]
  norm_num

/-- C7: every operation is deterministic and mutates no observable state: a
call returns the file system unchanged, and its result is unaffected by any
other call having run before it — so two calls with identical arguments
against identical file contents return identical results. -/
theorem C7_purity (expf : ℚ → ℚ) (w : World) (op other : Op) :
    (step expf w op).2 = w
    ∧ (step expf (step expf w other).2 op).1 = (step expf w op).1 := by
  have hw : ∀ (w' : World) (o : Op), (step expf w' o).2 = w' := by
    intro w' o
    cases o <;> rfl
  refine ⟨hw w op, ?_⟩
  rw [hw w other]

/-- C8: the result of `is_within_therapeutic_range` — value or error alike —
is independent of the `patient_data` argument: the parameter is accepted (at
any type) but never read. -/
theorem C8_patient_data_ignored {α β : Type} (conc : ℚ) (name : String)
    (d1 : α) (d2 : β) (file : Option RangeTable) :
    is_within_therapeutic_range conc name d1 file =
      is_within_therapeutic_range conc name d2 file := rfl

/-- C9: case-insensitivity applies only to the query: a stored key containing
an ASCII upper-case letter is compared verbatim against the lowercased query
and so can never be matched; when every key of the table contains one, every
query — including one equal to a stored key character for character — raises
the unknown-drug error. -/
theorem C9_upper_keys_unreachable {α : Type} (pd : α) (conc : ℚ) (name : String)
    (tbl : RangeTable) (h : ∀ kv ∈ tbl, hasUpper kv.1 = true) :
    is_within_therapeutic_range conc name pd (some tbl) = .error .unknownDrug := by
  rw [is_within_some_eq, pyGet_pyLower_eq_none tbl name h]

theorem C9_upper_keys_unreachable_witness :
    is_within_therapeutic_range (10 : ℚ) "Drug_A" ()
      (some [("Drug_A", ((5 : ℚ), (15 : ℚ)))]) = .error .unknownDrug :=
  C9_upper_keys_unreachable () 10 "Drug_A" [("Drug_A", (5, 15))] (by decide)

/-- C10: the `i < j` pairing excludes only equal indices, not equal names:
when the same name occurs at two distinct positions, the self-pair key
`(name, name)` (both components lowercased) is formed and looked up, and a
table containing that key yields an emitted interaction for the duplicates. -/
theorem C10_duplicate_names_self_pair (n : String) (l l₁ l₂ l₃ : List String)
    (h : l = l₁ ++ n :: (l₂ ++ n :: l₃)) (desc : String) :
    pairKey n n ∈ pairKeys l
    ∧ pairKey n n = PyKey.tup [pyLower n, pyLower n]
    ∧ check_interactions [n, n] (some [(PyKey.tup [pyLower n, pyLower n], desc)]) =
        .ok [interactionMsg n n desc] := by
  refine ⟨h ▸ pairKey_mem n n l₁ l₂ l₃, pairKey_self_eq n, ?_⟩
  simp [check_interactions, offDiag, pairKey_self_eq, pyGet]

theorem C10_duplicate_names_self_pair_witness :
    pairKey "drug_a" "drug_a" ∈ pairKeys ["drug_a", "drug_a"]
    ∧ check_interactions ["drug_a", "drug_a"]
        (some [(PyKey.tup ["drug_a", "drug_a"], "self interaction")]) =
        .ok ["Interaction between drug_a and drug_a: self interaction"] := by
  have h := C10_duplicate_names_self_pair "drug_a" ["drug_a", "drug_a"] [] [] [] rfl
    "self interaction"
  exact ⟨h.1, h.2.2⟩
